import Mathlib

/-!
Verification of the face-matcher repository (Express backend + React frontend).

The development shallowly embeds the JavaScript sources:

* `FaceMatcherServer` — the Rekognition `compareFaces` callbacks of the
  `/compare` and `/compare-images` endpoints (`server.js`, and the v3 server
  variant).  JS numbers are modelled as `ℚ`; `Math.round` is `⌊x + 1/2⌋`.
* `UniversalFetch` — the strategy list, round structure, backoff delay and
  return/throw behaviour of `universalFetch` (v3 server).  The effects of
  `fetch` are an oracle: a list of per-attempt results.
* Further namespaces below embed the Aadhaar proxy endpoint, the MediaPipe
  liveness component, the Amplify liveness component and the page-level
  compare logic.
-/

set_option maxHeartbeats 1000000

namespace FaceMatcherServer

/-- JS `Math.round`: round half towards positive infinity. -/
def jsRound (q : ℚ) : ℤ := ⌊q + 1/2⌋

/-- `Math.round(q * 100) / 100` — round to two decimal places as the server does. -/
def roundTwo (q : ℚ) : ℚ := (jsRound (q * 100) : ℚ) / 100

/-- JSON body produced by the `/compare` endpoint of `server.js`
(`requestId` and transport-level fields are not modelled). -/
structure CompareResponse where
  matchFound : Bool
  success : Bool
  isMatch : Bool
  similarity : ℚ
deriving DecidableEq, Repr

/-- JSON body produced by the v3 server's `/compare` endpoint, which adds a
`confidence` field equal to the rounded similarity. -/
structure CompareResponseV3 where
  matchFound : Bool
  success : Bool
  isMatch : Bool
  similarity : ℚ
  confidence : ℚ
deriving DecidableEq, Repr

/-- JSON body produced by `/compare-images` in `server.js`. -/
structure CompareImagesResponse where
  matchFound : Bool
  success : Bool
  isMatch : Bool
  similarity : ℚ
  confidence : ℚ
  faceMatches : ℕ
deriving DecidableEq, Repr

/-- The `rekognitionV2.compareFaces` success callback of `/compare` in
`server.js`.  The input is `data.FaceMatches`: `none` when the field is
absent, otherwise the list of `Similarity` values of the returned matches. -/
def compareFacesHandler (faceMatches : Option (List ℚ)) : CompareResponse :=
  match faceMatches with
  | some (similarity :: _) =>
      ⟨true, true, decide (80 < similarity), roundTwo similarity⟩
  | _ => ⟨false, false, false, 0⟩

/-- The `compareFaces` success callback of `/compare` in the v3 server
(adds `confidence`, equal to the rounded similarity). -/
def compareHandlerV3 (faceMatches : Option (List ℚ)) : CompareResponseV3 :=
  match faceMatches with
  | some (similarity :: _) =>
      ⟨true, true, decide (80 < similarity), roundTwo similarity, roundTwo similarity⟩
  | _ => ⟨false, false, false, 0, 0⟩

/-- The `compareFaces` success callback of `/compare-images` in `server.js`. -/
def compareImagesHandler (faceMatches : Option (List ℚ)) : CompareImagesResponse :=
  match faceMatches with
  | some (similarity :: rest) =>
      ⟨true, true, decide (80 < similarity), roundTwo similarity, roundTwo similarity,
        (similarity :: rest).length⟩
  | _ => ⟨false, false, false, 0, 0, 0⟩

theorem roundTwo_nonneg {q : ℚ} (h : 0 ≤ q) : 0 ≤ roundTwo q := by
  have h1 : (0 : ℤ) ≤ jsRound (q * 100) := by
    apply Int.floor_nonneg.mpr
    nlinarith
  unfold roundTwo
  positivity

theorem roundTwo_le_hundred {q : ℚ} (h : q ≤ 100) : roundTwo q ≤ 100 := by
  have h1 : jsRound (q * 100) ≤ jsRound (100 * 100) := by
    apply Int.floor_le_floor
    nlinarith
  have h2 : jsRound ((100 : ℚ) * 100) = 10000 := by
    unfold jsRound
    rw [Int.floor_eq_iff]
    norm_num
  have h3 : (jsRound (q * 100) : ℚ) ≤ 10000 := by
    exact_mod_cast h2 ▸ h1
  unfold roundTwo
  linarith

theorem roundTwo_den (q : ℚ) : ∃ n : ℤ, roundTwo q = (n : ℚ) / 100 :=
  ⟨jsRound (q * 100), rfl⟩

/-- C1: for a `/compare` request where both inputs are present, both images
were obtained and the Rekognition `CompareFaces` call succeeds: when the
returned `FaceMatches` list is non-empty, the response has
`matchFound = true`, `success = true`, `isMatch` true exactly when the first
match's raw similarity exceeds 80, and `similarity` equal to that similarity
rounded to two decimal places (`Math.round(s*100)/100`); when `FaceMatches`
is empty or absent, the response is
`matchFound = false, success = false, isMatch = false, similarity = 0`. -/
theorem C1_compare_response (fm : Option (List ℚ)) :
    (∀ s rest, fm = some (s :: rest) →
      (compareFacesHandler fm).matchFound = true ∧
      (compareFacesHandler fm).success = true ∧
      ((compareFacesHandler fm).isMatch = true ↔ 80 < s) ∧
      (compareFacesHandler fm).similarity = (⌊s * 100 + 1/2⌋ : ℚ) / 100) ∧
    ((fm = none ∨ fm = some []) →
      compareFacesHandler fm = ⟨false, false, false, 0⟩) := by
  constructor
  · rintro s rest rfl
    refine ⟨rfl, rfl, ?_, rfl⟩
    simp [compareFacesHandler]
  · rintro (rfl | rfl) <;> rfl

theorem C1_compare_response_witness :
    (compareFacesHandler (some [181/2])).similarity = 181/2 ∧
    (compareFacesHandler (some [181/2])).isMatch = true := by
  have h := (C1_compare_response (some [181/2])).1 (181/2) [] rfl
  have hf : (⌊(181/2 : ℚ) * 100 + 1/2⌋ : ℤ) = 9050 := by
    rw [Int.floor_eq_iff]
    norm_num
  refine ⟨h.2.2.2.trans ?_, h.2.2.1.mpr (by norm_num)⟩
  rw [hf]
  norm_num

/-- C10: response-body invariants of the `compareFaces` callbacks of
`/compare` (both server variants) and `/compare-images`: `isMatch` implies
`matchFound` and `success`; `matchFound = false` forces `isMatch = false`
and zero similarity (and zero confidence where present); and, provided every
Rekognition similarity lies in `[0, 100]`, the reported similarity lies in
`[0, 100]` and is an integer number of hundredths (two decimal places). -/
theorem C10_response_invariants (fm : Option (List ℚ))
    (hb : ∀ x ∈ fm.getD [], 0 ≤ x ∧ x ≤ 100) :
    ((compareFacesHandler fm).isMatch = true →
      (compareFacesHandler fm).matchFound = true ∧ (compareFacesHandler fm).success = true) ∧
    ((compareFacesHandler fm).matchFound = false →
      (compareFacesHandler fm).isMatch = false ∧ (compareFacesHandler fm).similarity = 0) ∧
    (0 ≤ (compareFacesHandler fm).similarity ∧ (compareFacesHandler fm).similarity ≤ 100) ∧
    (∃ n : ℤ, (compareFacesHandler fm).similarity = (n : ℚ) / 100) ∧
    ((compareHandlerV3 fm).isMatch = true →
      (compareHandlerV3 fm).matchFound = true ∧ (compareHandlerV3 fm).success = true) ∧
    ((compareHandlerV3 fm).matchFound = false →
      (compareHandlerV3 fm).isMatch = false ∧ (compareHandlerV3 fm).similarity = 0 ∧
      (compareHandlerV3 fm).confidence = 0) ∧
    (0 ≤ (compareHandlerV3 fm).similarity ∧ (compareHandlerV3 fm).similarity ≤ 100) ∧
    (∃ n : ℤ, (compareHandlerV3 fm).similarity = (n : ℚ) / 100) ∧
    ((compareImagesHandler fm).isMatch = true →
      (compareImagesHandler fm).matchFound = true ∧ (compareImagesHandler fm).success = true) ∧
    ((compareImagesHandler fm).matchFound = false →
      (compareImagesHandler fm).isMatch = false ∧ (compareImagesHandler fm).similarity = 0 ∧
      (compareImagesHandler fm).confidence = 0) ∧
    (0 ≤ (compareImagesHandler fm).similarity ∧ (compareImagesHandler fm).similarity ≤ 100) ∧
    (∃ n : ℤ, (compareImagesHandler fm).similarity = (n : ℚ) / 100) := by
  match fm with
  | some (s :: rest) =>
    have hs := hb s (by simp)
    have h0 : 0 ≤ roundTwo s := roundTwo_nonneg hs.1
    have h100 : roundTwo s ≤ 100 := roundTwo_le_hundred hs.2
    refine ⟨fun _ => ⟨rfl, rfl⟩, ?_, ⟨h0, h100⟩, roundTwo_den s,
      fun _ => ⟨rfl, rfl⟩, ?_, ⟨h0, h100⟩, roundTwo_den s,
      fun _ => ⟨rfl, rfl⟩, ?_, ⟨h0, h100⟩, roundTwo_den s⟩ <;>
      · intro h
        simp [compareFacesHandler, compareHandlerV3, compareImagesHandler] at h
  | some [] =>
    exact ⟨by intro h; simp [compareFacesHandler] at h, fun _ => ⟨rfl, rfl⟩,
      by norm_num [compareFacesHandler], ⟨0, by norm_num [compareFacesHandler]⟩,
      by intro h; simp [compareHandlerV3] at h, fun _ => ⟨rfl, rfl, rfl⟩,
      by norm_num [compareHandlerV3], ⟨0, by norm_num [compareHandlerV3]⟩,
      by intro h; simp [compareImagesHandler] at h, fun _ => ⟨rfl, rfl, rfl⟩,
      by norm_num [compareImagesHandler], ⟨0, by norm_num [compareImagesHandler]⟩⟩
  | none =>
    exact ⟨by intro h; simp [compareFacesHandler] at h, fun _ => ⟨rfl, rfl⟩,
      by norm_num [compareFacesHandler], ⟨0, by norm_num [compareFacesHandler]⟩,
      by intro h; simp [compareHandlerV3] at h, fun _ => ⟨rfl, rfl, rfl⟩,
      by norm_num [compareHandlerV3], ⟨0, by norm_num [compareHandlerV3]⟩,
      by intro h; simp [compareImagesHandler] at h, fun _ => ⟨rfl, rfl, rfl⟩,
      by norm_num [compareImagesHandler], ⟨0, by norm_num [compareImagesHandler]⟩⟩

theorem C10_response_invariants_witness :
    0 ≤ (compareFacesHandler (some [95, 60])).similarity ∧
    (compareFacesHandler (some [95, 60])).similarity ≤ 100 := by
  have h := C10_response_invariants (some [95, 60])
    (by intro x hx; simp at hx; rcases hx with rfl | rfl <;> norm_num)
  exact h.2.2.1

end FaceMatcherServer

namespace UniversalFetch

/-- The three `https.Agent` configurations built at the top of
`universalFetch`, in array order: TLS 1.2+, legacy TLS (`TLS_method`),
and the Node default. -/
inductive HttpsAgentKind
  | tls12plus
  | legacyTls
  | nodeDefault
deriving DecidableEq, Repr

/-- An agent attached to a strategy: one of the three HTTPS agents, or the
plain HTTP agent of the fallback. -/
inductive AgentKind
  | https (kind : HttpsAgentKind)
  | http
deriving DecidableEq, Repr

/-- One entry of the `strategies` array of `universalFetch`: the URL to
fetch, the agent, and the extra `Host` header (present only for the
direct-IP strategies). -/
structure Strategy where
  url : String
  agent : AgentKind
  hostHeader : Option String
deriving DecidableEq, Repr

/-- The order of the `httpsAgents` array. -/
def httpsAgentOrder : List HttpsAgentKind := [.tls12plus, .legacyTls, .nodeDefault]

/-- Character-list core of JS `String.prototype.replace` with a string
pattern: replace the first occurrence of `pat` by `rep` (for the empty
pattern, JS prepends `rep`, as does this function). -/
def replaceFirstChars (pat rep : List Char) : List Char → List Char
  | [] => if pat = [] then rep else []
  | c :: rest =>
      if pat.isPrefixOf (c :: rest) then rep ++ (c :: rest).drop pat.length
      else c :: replaceFirstChars pat rep rest

/-- JS `String.prototype.replace` with a string pattern: replace the first
occurrence only. -/
def replaceFirst (s pat rep : String) : String :=
  ⟨replaceFirstChars pat.data rep.data s.data⟩

/-- JS `String.prototype.startsWith`. -/
def strStartsWith (s pat : String) : Bool := pat.data.isPrefixOf s.data

/-- The `strategies` array built by `universalFetch` for a given `url`.
`hostname` is `new URL(url).hostname` and `resolvedIP` is the first address
returned by `dns.resolve4` (`none` when DNS resolution failed). -/
def universalFetchStrategies (url hostname : String) (resolvedIP : Option String) :
    List Strategy :=
  let base := httpsAgentOrder.map (fun a => Strategy.mk url (.https a) none)
  let ipStrats :=
    match resolvedIP with
    | some ip =>
        if strStartsWith url "https://" then
          httpsAgentOrder.map
            (fun a => Strategy.mk (replaceFirst url hostname ip) (.https a) (some hostname))
        else []
    | none => []
  let httpStrats :=
    if strStartsWith url "https://" then
      [Strategy.mk (replaceFirst url "https://" "http://") .http none]
    else []
  base ++ ipStrats ++ httpStrats

/-- The flattened attempt order of the retry loop: for each of the
`maxRetries` rounds, the whole strategy list in order. -/
def roundsAttempts (strats : List Strategy) : Nat → List Strategy
  | 0 => []
  | n + 1 => strats ++ roundsAttempts strats n

/-- `Math.min(1000 * Math.pow(2, attempt), 5000)` — the backoff delay the
loop sleeps between round `attempt` and round `attempt + 1`. -/
def backoffDelay (attempt : Nat) : Nat := min (1000 * 2 ^ attempt) 5000

theorem roundsAttempts_eq_join (strats : List Strategy) (n : Nat) :
    roundsAttempts strats n = (List.replicate n strats).flatten := by
  induction n with
  | zero => rfl
  | succ k ih => simp [roundsAttempts, List.replicate_succ, ih]

/-- C2: for an `https` URL, the strategies of `universalFetch` are, in
order: the original URL under the TLS 1.2+, legacy-TLS and default HTTPS
agents; then — only when DNS pre-resolution succeeded — the URL with its
hostname replaced by the first resolved address, with a `Host` header, under
the same three agents; then the URL rewritten to `http://` under the plain
HTTP agent.  The retry loop runs this list once per round for `maxRetries`
rounds, and the backoff delay between consecutive rounds is
`min(1000 * 2^attempt, 5000)` milliseconds. -/
theorem C2_strategy_order (url hostname ip : String) (n : Nat)
    (h : strStartsWith url "https://" = true) :
    (universalFetchStrategies url hostname (some ip) =
      [⟨url, .https .tls12plus, none⟩,
       ⟨url, .https .legacyTls, none⟩,
       ⟨url, .https .nodeDefault, none⟩,
       ⟨replaceFirst url hostname ip, .https .tls12plus, some hostname⟩,
       ⟨replaceFirst url hostname ip, .https .legacyTls, some hostname⟩,
       ⟨replaceFirst url hostname ip, .https .nodeDefault, some hostname⟩,
       ⟨replaceFirst url "https://" "http://", .http, none⟩]) ∧
    (universalFetchStrategies url hostname none =
      [⟨url, .https .tls12plus, none⟩,
       ⟨url, .https .legacyTls, none⟩,
       ⟨url, .https .nodeDefault, none⟩,
       ⟨replaceFirst url "https://" "http://", .http, none⟩]) ∧
    (∀ rip, roundsAttempts (universalFetchStrategies url hostname rip) n =
      (List.replicate n (universalFetchStrategies url hostname rip)).flatten) ∧
    (∀ a, backoffDelay a = min (1000 * 2 ^ a) 5000) := by
  refine ⟨?_, ?_, fun rip => roundsAttempts_eq_join _ n, fun a => rfl⟩
  · simp [universalFetchStrategies, httpsAgentOrder, h]
  · simp [universalFetchStrategies, httpsAgentOrder, h]

theorem C2_strategy_order_witness :
    universalFetchStrategies "https://example.com/a.jpg" "example.com" (some "1.2.3.4") =
      [⟨"https://example.com/a.jpg", .https .tls12plus, none⟩,
       ⟨"https://example.com/a.jpg", .https .legacyTls, none⟩,
       ⟨"https://example.com/a.jpg", .https .nodeDefault, none⟩,
       ⟨"https://1.2.3.4/a.jpg", .https .tls12plus, some "example.com"⟩,
       ⟨"https://1.2.3.4/a.jpg", .https .legacyTls, some "example.com"⟩,
       ⟨"https://1.2.3.4/a.jpg", .https .nodeDefault, some "example.com"⟩,
       ⟨"http://example.com/a.jpg", .http, none⟩] := by
  have h :=
    (C2_strategy_order "https://example.com/a.jpg" "example.com" "1.2.3.4" 1 (by decide)).1
  rw [h]
  decide

/-- An HTTP response as seen by `universalFetch`: its status and an opaque
tag distinguishing the response object. -/
structure RespData where
  status : Nat
  tag : Nat
deriving DecidableEq, Repr

/-- The outcome of one `fetch` attempt: a response, or a thrown network
error with its message. -/
inductive AttemptResult
  | resp (r : RespData)
  | netErr (msg : String)
deriving DecidableEq, Repr

/-- `response.ok`: status in `[200, 300)`. -/
def respOk (r : RespData) : Bool := decide (200 ≤ r.status) && decide (r.status < 300)

/-- A response `universalFetch` returns immediately: `ok`, or a definitive
404/403. -/
def returnable (r : RespData) : Bool :=
  respOk r || decide (r.status = 404) || decide (r.status = 403)

/-- What `universalFetch` does overall: returns a response, throws the last
network error, or throws the generic error. -/
inductive FetchOutcome
  | returned (r : RespData)
  | threwLast (msg : String)
  | threwAllFailed
deriving DecidableEq, Repr

/-- The attempt loop of `universalFetch`, consuming the per-attempt results
in schedule order while carrying `lastError`: an `ok` or 404/403 response is
returned at once; a non-returnable response is skipped without touching
`lastError`; a thrown error replaces `lastError`; at exhaustion the function
throws `lastError` if set, else the `All fetch strategies failed` error. -/
def runStrategies : List AttemptResult → Option String → FetchOutcome
  | [], none => .threwAllFailed
  | [], some e => .threwLast e
  | .resp r :: rest, le => if returnable r then .returned r else runStrategies rest le
  | .netErr e :: rest, _ => runStrategies rest (some e)

/-- `universalFetch` as a function of the list of per-attempt results of
the full schedule (`roundsAttempts` of the strategy list). -/
def universalFetchOutcome (results : List AttemptResult) : FetchOutcome :=
  runStrategies results none

/-- Specification-side: the first response in attempt order that is `ok`
or has status 404/403. -/
def firstReturnable (results : List AttemptResult) : Option RespData :=
  results.findSome? (fun a =>
    match a with
    | .resp r => if returnable r then some r else none
    | .netErr _ => none)

/-- Specification-side: the last network error encountered in attempt
order, starting from an accumulator. -/
def lastNetError : List AttemptResult → Option String → Option String
  | [], acc => acc
  | .netErr e :: rest, _ => lastNetError rest (some e)
  | .resp _ :: rest, acc => lastNetError rest acc

theorem runStrategies_spec (results : List AttemptResult) : ∀ le,
    runStrategies results le =
      match firstReturnable results with
      | some r => .returned r
      | none =>
          match lastNetError results le with
          | some e => .threwLast e
          | none => .threwAllFailed := by
  induction results with
  | nil => intro le; cases le <;> rfl
  | cons a rest ih =>
    intro le
    cases a with
    | resp r =>
      by_cases hr : returnable r = true
      · simp [runStrategies, firstReturnable, hr]
      · simp only [Bool.not_eq_true] at hr
        simp [runStrategies, firstReturnable, lastNetError, hr, ih le]
    | netErr e =>
      simp [runStrategies, firstReturnable, lastNetError, ih (some e)]

/-- C3: `universalFetch` returns the first response in attempt order that
is `ok` or has status 404/403 (404/403 responses are returned immediately,
without further strategies or rounds); if the full schedule of
`maxRetries` rounds produces no such response, it throws the last network
error encountered, and when every attempt completed with a non-ok,
non-404, non-403 response (so no network error occurred) it throws the
`All fetch strategies failed` error. -/
theorem C3_return_and_throw (results : List AttemptResult) :
    universalFetchOutcome results =
      match firstReturnable results with
      | some r => .returned r
      | none =>
          match lastNetError results none with
          | some e => .threwLast e
          | none => .threwAllFailed :=
  runStrategies_spec results none

end UniversalFetch

namespace AadhaarProxy

/-- Whitespace characters stripped by JS `String.prototype.trim` (the
ASCII part of the JS whitespace set, which is all that PPO numbers use). -/
def isJsWhitespace (c : Char) : Bool :=
  c = ' ' || c = '\t' || c = '\n' || c = '\r' || c = '\x0b' || c = '\x0c'

/-- JS `String.prototype.trim`. -/
def jsTrim (s : String) : String :=
  ⟨((s.data.dropWhile isJsWhitespace).reverse.dropWhile isJsWhitespace).reverse⟩

/-- JS truthiness of a string: every string except `""` is truthy. -/
def jsTruthyStr (s : String) : Bool := !s.data.isEmpty

/-- JS truthiness of a possibly-absent string field. -/
def jsTruthyOpt (o : Option String) : Bool :=
  match o with
  | none => false
  | some s => jsTruthyStr s

/-- `response.ok`: status in `[200, 300)`. -/
def httpOk (status : Nat) : Bool := decide (200 ≤ status) && decide (status < 300)

/-- The `data` field of the upstream Aadhaar body (only the field the
endpoint reads is modelled). -/
structure UpstreamData where
  aadhaarPhotoUrl : Option String
deriving DecidableEq, Repr

/-- The JSON body of an upstream Aadhaar response. -/
structure UpstreamBody where
  success : Bool
  message : Option String
  dataField : Option UpstreamData
deriving DecidableEq, Repr

/-- Result of one `universalFetch` call made by the endpoint: a thrown
error, or a response with status, a flag for a JSON `content-type`, and the
parsed body (`none` when `resp.json()` throws). -/
inductive UpstreamResult
  | threw (msg : String)
  | resp (status : Nat) (contentTypeJson : Bool) (body : Option UpstreamBody)
deriving DecidableEq, Repr

/-- A response of `/api/aadhar/getCandidateDetails` (status plus the
`error` string, or the forwarded `data`/`message` on success; `requestId`,
`details` and `suggestion` are not modelled). -/
inductive ProxyResponse
  | failure (status : Nat) (error : String)
  | ok (dataField : UpstreamData) (message : Option String)
deriving DecidableEq, Repr

/-- An upstream result on which the `urlVariations` loop neither returns
nor raises out of the handler: a thrown fetch, or a response that is not a
404, and is not ok / not JSON / unparsable — the loop records `lastError`
and moves to the next variation. -/
def nonTerminating (r : UpstreamResult) : Bool :=
  match r with
  | .threw _ => true
  | .resp status ct body =>
      decide (status ≠ 404) && (!httpOk status || !ct || decide (body = none))


/-- The body of the `for (const externalUrl of urlVariations)` loop for a
single variation: `some resp` when the iteration returns that response to
the client (upstream 404; a non-success body; a success body without a
truthy photo URL; or the success response), `none` when it records
`lastError` and continues with the next variation (thrown fetch, non-ok
status, non-JSON content type, unparsable body). -/
def variationTerminal (r : UpstreamResult) : Option ProxyResponse :=
  match r with
  | .threw _ => none
  | .resp status ctJson body =>
      if status = 404 then some (.failure 404 "PPO Number not found in the system")
      else if !httpOk status then none
      else if !ctJson then none
      else
        match body with
        | none => none
        | some b =>
            if !b.success then
              some (.failure 400
                (match b.message with
                 | some m => if jsTruthyStr m then m else "Failed to fetch Aadhaar details"
                 | none => "Failed to fetch Aadhaar details"))
            else
              match b.dataField with
              | none => some (.failure 404 "No Aadhaar photo found for this PPO Number")
              | some d =>
                  if !jsTruthyOpt d.aadhaarPhotoUrl then
                    some (.failure 404 "No Aadhaar photo found for this PPO Number")
                  else some (.ok d b.message)

/-- The `urlVariations` loop: each entry pairs the URL of a variation with
the outcome of its `universalFetch` call.  Returns the handler response
together with the list of URLs actually fetched; the 502 response is
produced when the loop exhausts all variations. -/
def runVariations : List (String × UpstreamResult) → ProxyResponse × List String
  | [] => (.failure 502 "Unable to connect to Aadhaar service. Please try again.", [])
  | (u, r) :: rest =>
      match variationTerminal r with
      | some resp => (resp, [u])
      | none =>
          let next := runVariations rest
          (next.1, u :: next.2)

/-- The external base URL hard-coded in the endpoint. -/
def aadhaarBaseUrl : String :=
  "testingpcmcpensioner.altwise.in/api/aadhar/getCandidateDetails"

/-- The `GET /api/aadhar/getCandidateDetails` handler.  `ppoNumber` is the
query parameter (`none` when absent), `enc` is `encodeURIComponent` (a JS
built-in, taken as a parameter), and `r1`, `r2` are the outcomes of the
`universalFetch` calls for the `https` and `http` URL variations. -/
def getCandidateDetails (ppoNumber : Option String) (enc : String → String)
    (r1 r2 : UpstreamResult) : ProxyResponse × List String :=
  match ppoNumber with
  | none => (.failure 400 "ppoNumber is required", [])
  | some p =>
      if !jsTruthyStr p || !jsTruthyStr (jsTrim p) then
        (.failure 400 "ppoNumber is required", [])
      else
        let cleanPpoNumber := jsTrim p
        let queryString := "?ppoNumber=" ++ enc cleanPpoNumber
        runVariations
          [("https://" ++ aadhaarBaseUrl ++ queryString, r1),
           ("http://" ++ aadhaarBaseUrl ++ queryString, r2)]

theorem jsTruthyStr_eq_false_iff (s : String) : jsTruthyStr s = false ↔ s = "" := by
  cases s with
  | mk l => simp [jsTruthyStr, List.isEmpty_iff, String.ext_iff]

theorem jsTrim_empty : jsTrim "" = "" := by decide

theorem jsTruthyStr_of_trim {p : String} (h : jsTrim p ≠ "") :
    jsTruthyStr p = true ∧ jsTruthyStr (jsTrim p) = true := by
  constructor
  · by_contra hc
    simp only [Bool.not_eq_true] at hc
    rw [jsTruthyStr_eq_false_iff] at hc
    subst hc
    exact h jsTrim_empty
  · by_contra hc
    simp only [Bool.not_eq_true] at hc
    rw [jsTruthyStr_eq_false_iff] at hc
    exact h hc

theorem variationTerminal_none_iff (r : UpstreamResult) :
    variationTerminal r = none ↔ nonTerminating r = true := by
  cases r with
  | threw m => simp [variationTerminal, nonTerminating]
  | resp status ct body =>
      by_cases h404 : status = 404
      · subst h404
        simp [variationTerminal, nonTerminating]
      · by_cases hok : httpOk status = true
        · by_cases hct : ct = true
          · cases body with
            | none => simp [variationTerminal, nonTerminating, h404, hok, hct]
            | some b =>
                by_cases hs : b.success = true
                · cases hdf : b.dataField with
                  | none => simp [variationTerminal, nonTerminating, h404, hok, hct, hs, hdf]
                  | some d =>
                      by_cases hph : jsTruthyOpt d.aadhaarPhotoUrl = true
                      · simp [variationTerminal, nonTerminating, h404, hok, hct, hs, hdf, hph]
                      · simp only [Bool.not_eq_true] at hph
                        simp [variationTerminal, nonTerminating, h404, hok, hct, hs, hdf, hph]
                · simp only [Bool.not_eq_true] at hs
                  simp [variationTerminal, nonTerminating, h404, hok, hct, hs]
          · simp only [Bool.not_eq_true] at hct
            simp [variationTerminal, nonTerminating, h404, hok, hct]
        · simp only [Bool.not_eq_true] at hok
          simp [variationTerminal, nonTerminating, h404, hok]

theorem runVariations_cons_terminal (u : String) (rest : List (String × UpstreamResult))
    (r : UpstreamResult) (resp : ProxyResponse)
    (h : variationTerminal r = some resp) :
    runVariations ((u, r) :: rest) = (resp, [u]) := by
  simp [runVariations, h]

theorem runVariations_cons_skip {r : UpstreamResult}
    (u : String) (rest : List (String × UpstreamResult))
    (h : variationTerminal r = none) :
    runVariations ((u, r) :: rest) =
      ((runVariations rest).1, u :: (runVariations rest).2) := by
  simp [runVariations, h]

/-- C9: behaviour of `GET /api/aadhar/getCandidateDetails`: a missing or
whitespace-only `ppoNumber` yields `400 "ppoNumber is required"` with no
upstream call; otherwise the trimmed, URL-encoded `ppoNumber` is forwarded
to the external Aadhaar service (the `https` variation, then, if needed,
the `http` variation); an upstream 404 yields
`404 "PPO Number not found in the system"`; an ok JSON body with
`success` but no truthy `data.aadhaarPhotoUrl` yields
`404 "No Aadhaar photo found for this PPO Number"`; and when both
variations are exhausted the handler responds 502. -/
theorem C9_getCandidateDetails (enc : String → String) (p : String)
    (r1 r2 : UpstreamResult) :
    (∀ q : Option String, (q = none ∨ ∃ s, q = some s ∧ jsTrim s = "") →
      getCandidateDetails q enc r1 r2 = (.failure 400 "ppoNumber is required", [])) ∧
    (jsTrim p ≠ "" →
      ((getCandidateDetails (some p) enc r1 r2).2 =
          ["https://" ++ aadhaarBaseUrl ++ ("?ppoNumber=" ++ enc (jsTrim p))] ∨
        (getCandidateDetails (some p) enc r1 r2).2 =
          ["https://" ++ aadhaarBaseUrl ++ ("?ppoNumber=" ++ enc (jsTrim p)),
           "http://" ++ aadhaarBaseUrl ++ ("?ppoNumber=" ++ enc (jsTrim p))])) ∧
    (jsTrim p ≠ "" → ∀ ct b, r1 = .resp 404 ct b →
      (getCandidateDetails (some p) enc r1 r2).1 =
        .failure 404 "PPO Number not found in the system") ∧
    (jsTrim p ≠ "" → ∀ status ct b, r1 = .resp status ct (some b) →
      httpOk status = true → ct = true → b.success = true →
      (b.dataField = none ∨
        ∃ d, b.dataField = some d ∧ jsTruthyOpt d.aadhaarPhotoUrl = false) →
      (getCandidateDetails (some p) enc r1 r2).1 =
        .failure 404 "No Aadhaar photo found for this PPO Number") ∧
    (jsTrim p ≠ "" → nonTerminating r1 = true → nonTerminating r2 = true →
      (getCandidateDetails (some p) enc r1 r2).1 =
        .failure 502 "Unable to connect to Aadhaar service. Please try again.") := by
  have trimOk : ∀ (q : String), jsTrim q ≠ "" →
      (!jsTruthyStr q || !jsTruthyStr (jsTrim q)) = false := by
    intro q hq
    have h := jsTruthyStr_of_trim hq
    simp [h.1, h.2]
  refine ⟨?_, ?_, ?_, ?_, ?_⟩
  · rintro q (rfl | ⟨s, rfl, hs⟩)
    · rfl
    · by_cases hp : jsTruthyStr s = true
      · have h2 : jsTruthyStr (jsTrim s) = false := by
          rw [jsTruthyStr_eq_false_iff]
          exact hs
        simp [getCandidateDetails, hp, h2]
      · simp only [Bool.not_eq_true] at hp
        simp [getCandidateDetails, hp]
  · intro hp
    simp only [getCandidateDetails, trimOk p hp, Bool.false_eq_true, if_false]
    rcases h1 : variationTerminal r1 with _ | resp1
    · rw [runVariations_cons_skip _ _ h1]
      rcases h2 : variationTerminal r2 with _ | resp2
      · rw [runVariations_cons_skip _ _ h2]
        right
        rfl
      · rw [runVariations_cons_terminal _ _ _ _ h2]
        right
        rfl
    · rw [runVariations_cons_terminal _ _ _ _ h1]
      left
      rfl
  · intro hp ct b hr1
    subst hr1
    simp only [getCandidateDetails, trimOk p hp, Bool.false_eq_true, if_false]
    rw [runVariations_cons_terminal _ _ _
      (.failure 404 "PPO Number not found in the system") (by simp [variationTerminal])]
  · intro hp status ct b hr1 hok hct hsucc hdf
    subst hr1
    subst hct
    have h404 : status ≠ 404 := by
      intro hco
      subst hco
      simp [httpOk] at hok
    simp only [getCandidateDetails, trimOk p hp, Bool.false_eq_true, if_false]
    rcases hdf with hdf | ⟨d, hdf, hph⟩
    · rw [runVariations_cons_terminal _ _ _
        (.failure 404 "No Aadhaar photo found for this PPO Number")
        (by simp [variationTerminal, h404, hok, hsucc, hdf])]
    · rw [runVariations_cons_terminal _ _ _
        (.failure 404 "No Aadhaar photo found for this PPO Number")
        (by simp [variationTerminal, h404, hok, hsucc, hdf, hph])]
  · intro hp h1 h2
    simp only [getCandidateDetails, trimOk p hp, Bool.false_eq_true, if_false]
    rw [runVariations_cons_skip _ _ ((variationTerminal_none_iff r1).mpr h1),
      runVariations_cons_skip _ _ ((variationTerminal_none_iff r2).mpr h2)]
    rfl

theorem C9_getCandidateDetails_witness :
    (getCandidateDetails (some " P123 ") (fun s => s) (.threw "boom")
        (.resp 503 true none)).1 =
      .failure 502 "Unable to connect to Aadhaar service. Please try again." := by
  have h := (C9_getCandidateDetails (fun s => s) " P123 " (.threw "boom")
    (.resp 503 true none)).2.2.2.2
  exact h (by decide) (by decide) (by decide)

end AadhaarProxy

namespace MediaPipe

open scoped Classical

/-- `MAX_HISTORY` of the MediaPipe liveness component. -/
def MAX_HISTORY : ℕ := 15

/-- `history.push(x); if (history.length > MAX_HISTORY) history.shift();` -/
def pushSample {α : Type} (history : List α) (x : α) : List α :=
  if MAX_HISTORY < (history ++ [x]).length then (history ++ [x]).tail
  else history ++ [x]

/-- The per-frame data appended by `onResults` when a face is present:
face centre, frame luminance, and average EAR.  JS floats are rationals. -/
structure FrameSample where
  center : ℚ × ℚ
  luminance : ℚ
  avgEAR : ℚ

/-- The three history buffers of the component. -/
structure Buffers where
  faceHistory : List (ℚ × ℚ)
  textureHistory : List ℚ
  earHistory : List ℚ

/-- The buffer updates of one `onResults` invocation: `none` models the
early returns before any push (processing disabled, capture done, no video,
no face landmarks), `some f` a frame with a detected face, where all three
buffers are pushed (the centring check comes after the pushes). -/
def onResultsBuffers (b : Buffers) (frame : Option FrameSample) : Buffers :=
  match frame with
  | none => b
  | some f =>
      ⟨pushSample b.faceHistory f.center,
       pushSample b.textureHistory f.luminance,
       pushSample b.earHistory f.avgEAR⟩

/-- The buffers after a sequence of `onResults` invocations starting from
the initial empty refs. -/
def runFrames (frames : List (Option FrameSample)) : Buffers :=
  frames.foldl onResultsBuffers ⟨[], [], []⟩

theorem pushSample_length_le {α : Type} (history : List α) (x : α) :
    (pushSample history x).length ≤ history.length + 1 := by
  unfold pushSample
  split
  · simp only [List.length_tail, List.length_append, List.length_singleton]
    omega
  · simp

theorem pushSample_bound {α : Type} {history : List α} (x : α)
    (h : history.length ≤ MAX_HISTORY) :
    (pushSample history x).length ≤ MAX_HISTORY := by
  unfold pushSample
  split
  · rename_i hc
    simp only [List.length_tail, List.length_append, List.length_singleton] at hc ⊢
    omega
  · rename_i hc
    simp only [not_lt, List.length_append, List.length_singleton] at hc ⊢
    omega

/-- C8: the three per-frame history buffers are bounded: every `onResults`
invocation appends at most one sample to each buffer and drops the oldest
when the length exceeds `MAX_HISTORY`, so from the initial empty buffers
every reachable buffer length is at most `MAX_HISTORY = 15`. -/
theorem C8_bounded_histories :
    MAX_HISTORY = 15 ∧
    (∀ (b : Buffers) (f : Option FrameSample),
      (onResultsBuffers b f).faceHistory.length ≤ b.faceHistory.length + 1 ∧
      (onResultsBuffers b f).textureHistory.length ≤ b.textureHistory.length + 1 ∧
      (onResultsBuffers b f).earHistory.length ≤ b.earHistory.length + 1 ∧
      (b.faceHistory.length ≤ MAX_HISTORY →
        (onResultsBuffers b f).faceHistory.length ≤ MAX_HISTORY) ∧
      (b.textureHistory.length ≤ MAX_HISTORY →
        (onResultsBuffers b f).textureHistory.length ≤ MAX_HISTORY) ∧
      (b.earHistory.length ≤ MAX_HISTORY →
        (onResultsBuffers b f).earHistory.length ≤ MAX_HISTORY)) ∧
    (∀ frames : List (Option FrameSample),
      (runFrames frames).faceHistory.length ≤ MAX_HISTORY ∧
      (runFrames frames).textureHistory.length ≤ MAX_HISTORY ∧
      (runFrames frames).earHistory.length ≤ MAX_HISTORY) := by
  have hstep : ∀ (b : Buffers) (f : Option FrameSample),
      (onResultsBuffers b f).faceHistory.length ≤ b.faceHistory.length + 1 ∧
      (onResultsBuffers b f).textureHistory.length ≤ b.textureHistory.length + 1 ∧
      (onResultsBuffers b f).earHistory.length ≤ b.earHistory.length + 1 ∧
      (b.faceHistory.length ≤ MAX_HISTORY →
        (onResultsBuffers b f).faceHistory.length ≤ MAX_HISTORY) ∧
      (b.textureHistory.length ≤ MAX_HISTORY →
        (onResultsBuffers b f).textureHistory.length ≤ MAX_HISTORY) ∧
      (b.earHistory.length ≤ MAX_HISTORY →
        (onResultsBuffers b f).earHistory.length ≤ MAX_HISTORY) := by
    intro b f
    cases f with
    | none => exact ⟨by simp [onResultsBuffers], by simp [onResultsBuffers],
        by simp [onResultsBuffers], fun h => by simpa [onResultsBuffers] using h,
        fun h => by simpa [onResultsBuffers] using h,
        fun h => by simpa [onResultsBuffers] using h⟩
    | some s =>
        exact ⟨pushSample_length_le _ _, pushSample_length_le _ _, pushSample_length_le _ _,
          fun h => pushSample_bound _ h, fun h => pushSample_bound _ h,
          fun h => pushSample_bound _ h⟩
  refine ⟨rfl, hstep, ?_⟩
  have hgen : ∀ (frames : List (Option FrameSample)) (b : Buffers),
      b.faceHistory.length ≤ MAX_HISTORY →
      b.textureHistory.length ≤ MAX_HISTORY →
      b.earHistory.length ≤ MAX_HISTORY →
      (frames.foldl onResultsBuffers b).faceHistory.length ≤ MAX_HISTORY ∧
      (frames.foldl onResultsBuffers b).textureHistory.length ≤ MAX_HISTORY ∧
      (frames.foldl onResultsBuffers b).earHistory.length ≤ MAX_HISTORY := by
    intro frames
    induction frames with
    | nil => intro b h1 h2 h3; exact ⟨h1, h2, h3⟩
    | cons f rest ih =>
        intro b h1 h2 h3
        have hs := hstep b f
        exact ih (onResultsBuffers b f) (hs.2.2.2.1 h1) (hs.2.2.2.2.1 h2) (hs.2.2.2.2.2 h3)
  intro frames
  exact hgen frames ⟨[], [], []⟩ (by simp) (by simp) (by simp)

theorem C8_bounded_histories_witness :
    (onResultsBuffers ⟨List.replicate 15 ((0 : ℚ), (0 : ℚ)), [], []⟩
      (some ⟨(1, 1), 0, 0⟩)).faceHistory.length ≤ MAX_HISTORY := by
  have h := (C8_bounded_histories.2.1 ⟨List.replicate 15 ((0 : ℚ), (0 : ℚ)), [], []⟩
    (some ⟨(1, 1), 0, 0⟩)).2.2.2.1
  exact h (by simp [MAX_HISTORY])

/-- JS truthiness of the fields the detector reads off the server result of
`livenessCheckFrame`: `result.isLive`, `result.live`, `result.success`. -/
structure ServerFrameResult where
  isLive : Bool
  live : Bool
  success : Bool
deriving DecidableEq, Repr

/-- `const serverLive = !!(result && (result.isLive || result.live || result.success));` -/
def serverLive (result : Option ServerFrameResult) : Bool :=
  match result with
  | none => false
  | some r => r.isLive || r.live || r.success

/-- The maximum of `|history[i] - history[i-1]|` over consecutive samples. -/
def maxVariation (history : List ℚ) : ℚ :=
  (history.zip history.tail).foldl (fun m p => max m |p.2 - p.1|) 0

/-- `isTextureChangeDetected`: false on fewer than 5 samples, else whether
the maximal consecutive luminance variation exceeds `0.01`. -/
def isTextureChangeDetected (history : List ℚ) : Bool :=
  if history.length < 5 then false
  else decide ((1/100 : ℚ) < maxVariation history)

/-- The summed Euclidean distances between consecutive face centres
(`Math.sqrt(dx*dx + dy*dy)` accumulated over the history). -/
noncomputable def totalMovement (history : List (ℚ × ℚ)) : ℝ :=
  (history.zip history.tail).foldl
    (fun t p =>
      t + Real.sqrt (((p.2.1 - p.1.1 : ℚ) : ℝ) ^ 2 + ((p.2.2 - p.1.2 : ℚ) : ℝ) ^ 2)) 0

/-- `isMotionDetected`: at least 5 samples and average consecutive movement
above 3 pixels. -/
def IsMotionDetected (history : List (ℚ × ℚ)) : Prop :=
  ¬ history.length < 5 ∧
    (3 : ℝ) < totalMovement history / ((history.length : ℝ) - 1)

set_option linter.unusedVariables false in
/-- The `isRealLive` decision of `captureAndVerifyLiveness`:
`let isRealLive = false; if (serverLive && hasTextureChange) isRealLive = true;`.
The face-centre history is an argument because the code computes
`hasMotion = isMotionDetected()` alongside, but the decision never reads it. -/
def isRealLive (result : Option ServerFrameResult) (faceHistory : List (ℚ × ℚ))
    (textureHistory : List ℚ) : Bool :=
  if serverLive result && isTextureChangeDetected textureHistory then true else false

theorem totalMovement_const : totalMovement (List.replicate 5 ((0 : ℚ), (0 : ℚ))) = 0 := by
  show totalMovement [(0, 0), (0, 0), (0, 0), (0, 0), (0, 0)] = 0
  unfold totalMovement
  norm_num [List.zip, List.zipWith, Real.sqrt_zero]

/-- C6 (counterexample): the claim that liveness is declared verified
exactly when the server reports live and both the luminance and motion
heuristics indicate a live, moving face is false: with a live server
verdict, a fluctuating luminance history, and a perfectly static
face-centre history (no motion), `isRealLive` is still `true`: the motion
heuristic is computed but never used in the decision. -/
theorem C6_counterexample :
    isRealLive (some ⟨true, false, false⟩) (List.replicate 5 ((0 : ℚ), (0 : ℚ)))
      [0, 1, 0, 1, 0] = true ∧
    ¬ IsMotionDetected (List.replicate 5 ((0 : ℚ), (0 : ℚ))) := by
  constructor
  · have htex : isTextureChangeDetected [0, 1, 0, 1, 0] = true := by
      unfold isTextureChangeDetected
      norm_num
      unfold maxVariation
      simp only [List.tail_cons, List.zip, List.zipWith, List.foldl]
      rw [lt_max_iff]
      right
      norm_num
    unfold isRealLive
    rw [htex]
    rfl
  · intro hmotion
    have h := hmotion.2
    rw [totalMovement_const] at h
    norm_num at h

/-- C6 (amended): `isRealLive` is `true` exactly when the server reports
the frame live and the client-side texture-change (luminance) heuristic
fires; the face-centre motion heuristic does not influence the decision
(the decision is invariant under any change of the face-centre history). -/
theorem C6_isRealLive_amended (result : Option ServerFrameResult)
    (fh fh' : List (ℚ × ℚ)) (th : List ℚ) :
    (isRealLive result fh th = true ↔
      serverLive result = true ∧ isTextureChangeDetected th = true) ∧
    isRealLive result fh th = isRealLive result fh' th := by
  constructor
  · unfold isRealLive
    by_cases h : (serverLive result && isTextureChangeDetected th) = true
    · simp only [h, if_true, true_iff]
      exact Bool.and_eq_true _ _ |>.mp h
    · simp only [Bool.not_eq_true] at h
      simp only [h, Bool.false_eq_true, if_false, false_iff, not_and]
      intro h1 h2
      rw [h1, h2] at h
      simp at h
  · rfl

/-- `Math.hypot(x, y)`. -/
noncomputable def jsHypot (x y : ℝ) : ℝ := Real.sqrt (x ^ 2 + y ^ 2)

/-- The `getEAR` callback: six landmark points; vertical distances `p1 p5`
and `p2 p4`, horizontal distance `p0 p3`; JS floats are reals. -/
noncomputable def getEAR (pts : Fin 6 → ℝ × ℝ) : ℝ :=
  let dist := fun (a b : ℝ × ℝ) => jsHypot (a.1 - b.1) (a.2 - b.2)
  let vertical1 := dist (pts 1) (pts 5)
  let vertical2 := dist (pts 2) (pts 4)
  let horizontal := dist (pts 0) (pts 3)
  (vertical1 + vertical2) / (2 * horizontal)

/-- Euclidean distance in the plane. -/
noncomputable def euclDist (a b : ℝ × ℝ) : ℝ :=
  Real.sqrt ((a.1 - b.1) ^ 2 + (a.2 - b.2) ^ 2)

/-- The blink-closing threshold `CLOSE` of `onResults`. -/
noncomputable def CLOSE : ℝ := 0.2

/-- The blink-reopening threshold `OPEN` of `onResults`. -/
noncomputable def OPEN : ℝ := 0.27

/-- The blink branch of one `onResults` frame, given the current
`blinkStartedRef` flag, the `livenessVerifiedRef` flag and the frame's
average EAR.  Returns the new `blinkStartedRef` value and whether this
frame triggers the final photo capture: a drop below `CLOSE` starts a
blink; a rise above `OPEN` ends it (resetting the flag in every case) and
captures exactly when liveness is verified. -/
noncomputable def blinkStep (started verified : Bool) (avgEAR : ℝ) : Bool × Bool :=
  if started = false ∧ avgEAR < CLOSE then (true, false)
  else if started = true ∧ OPEN < avgEAR then (false, verified)
  else (started, false)

/-- The `blinkStartedRef` update of `blinkStep` alone. -/
noncomputable def stepState (started : Bool) (avgEAR : ℝ) : Bool :=
  if started = false ∧ avgEAR < CLOSE then true
  else if started = true ∧ OPEN < avgEAR then false
  else started

/-- The capture flags of a run of frames, each frame being its average EAR
together with the `livenessVerifiedRef` value at that frame. -/
noncomputable def blinkRun (started : Bool) : List (ℝ × Bool) → List Bool
  | [] => []
  | (e, v) :: rest =>
      (blinkStep started v e).2 :: blinkRun (blinkStep started v e).1 rest

/-- `blinkStartedRef` after a sequence of average-EAR values. -/
noncomputable def stAfter (started : Bool) (ears : List ℝ) : Bool :=
  ears.foldl stepState started

/-- Specification-side: the EAR history contains a drop below `CLOSE` not
yet followed by a rise above `OPEN` — a blink has started and is pending. -/
def BlinkPending (ears : List ℝ) : Prop :=
  ∃ (j : ℕ) (e : ℝ), ears[j]? = some e ∧ e < CLOSE ∧
    ∀ (k : ℕ) (e2 : ℝ), j < k → ears[k]? = some e2 → ¬ OPEN < e2

theorem blinkStep_fst (s v : Bool) (e : ℝ) : (blinkStep s v e).1 = stepState s e := by
  unfold blinkStep stepState
  split_ifs <;> rfl

theorem blinkStep_snd (s v : Bool) (e : ℝ) :
    (blinkStep s v e).2 = true ↔ s = true ∧ OPEN < e ∧ v = true := by
  unfold blinkStep
  split_ifs with h1 h2
  · simp [h1.1]
  · simp [h2.1, h2.2]
  · simp only [Bool.false_eq_true, false_iff]
    intro hcon
    exact h2 ⟨hcon.1, hcon.2.1⟩

theorem not_open_lt_of_lt_close {e : ℝ} (h : e < CLOSE) : ¬ OPEN < e := by
  unfold CLOSE at h
  unfold OPEN
  intro h2
  norm_num at h h2
  linarith

theorem stAfter_append_one (s : Bool) (l : List ℝ) (e : ℝ) :
    stAfter s (l ++ [e]) = stepState (stAfter s l) e := by
  unfold stAfter
  rw [List.foldl_append]
  rfl

theorem stAfter_cons (s : Bool) (e : ℝ) (l : List ℝ) :
    stAfter s (e :: l) = stAfter (stepState s e) l := rfl

theorem blinkPending_nil : ¬ BlinkPending [] := by
  rintro ⟨j, e, hj, _, _⟩
  simp at hj

theorem blinkPending_snoc (l : List ℝ) (e : ℝ) :
    BlinkPending (l ++ [e]) ↔ e < CLOSE ∨ (BlinkPending l ∧ ¬ OPEN < e) := by
  constructor
  · rintro ⟨j, e0, hj, hlt, hall⟩
    by_cases hjl : j < l.length
    · right
      refine ⟨⟨j, e0, ?_, hlt, ?_⟩, ?_⟩
      · rwa [List.getElem?_append_left hjl] at hj
      · intro k e2 hk hke2
        have hkl : k < l.length := by
          by_contra hc
          push_neg at hc
          rw [List.getElem?_eq_none hc] at hke2
          exact absurd hke2 (by simp)
        exact hall k e2 hk (by rw [List.getElem?_append_left hkl]; exact hke2)
      · have he : (l ++ [e])[l.length]? = some e := by
          rw [List.getElem?_append_right (le_refl l.length)]
          simp
        exact hall l.length e hjl he
    · push_neg at hjl
      have hjlen : j < l.length + 1 := by
        by_contra hc
        push_neg at hc
        rw [List.getElem?_eq_none (by simpa using hc)] at hj
        exact absurd hj (by simp)
      have hje : j = l.length := by omega
      subst hje
      have he : (l ++ [e])[l.length]? = some e := by
        rw [List.getElem?_append_right (le_refl l.length)]
        simp
      rw [he] at hj
      have he0 : e0 = e := by
        have := Option.some.inj hj
        exact this.symm
      subst he0
      left
      exact hlt
  · rintro (he | ⟨⟨j, e0, hj, hlt, hall⟩, hopen⟩)
    · refine ⟨l.length, e, ?_, he, ?_⟩
      · rw [List.getElem?_append_right (le_refl l.length)]
        simp
      · intro k e2 hk hke2
        have hkb : k < l.length + 1 := by
          by_contra hc
          push_neg at hc
          rw [List.getElem?_eq_none (by simpa using hc)] at hke2
          exact absurd hke2 (by simp)
        omega
    · have hjl : j < l.length := by
        by_contra hc
        push_neg at hc
        rw [List.getElem?_eq_none hc] at hj
        exact absurd hj (by simp)
      refine ⟨j, e0, ?_, hlt, ?_⟩
      · rw [List.getElem?_append_left hjl]
        exact hj
      · intro k e2 hk hke2
        by_cases hkl : k < l.length
        · exact hall k e2 hk (by rwa [List.getElem?_append_left hkl] at hke2)
        · push_neg at hkl
          have hkb : k < l.length + 1 := by
            by_contra hc
            push_neg at hc
            rw [List.getElem?_eq_none (by simpa using hc)] at hke2
            exact absurd hke2 (by simp)
          have hke : k = l.length := by omega
          subst hke
          have he2 : (l ++ [e])[l.length]? = some e := by
            rw [List.getElem?_append_right (le_refl l.length)]
            simp
          rw [he2] at hke2
          have : e2 = e := (Option.some.inj hke2).symm
          subst this
          exact hopen

theorem stAfter_false_iff (l : List ℝ) : stAfter false l = true ↔ BlinkPending l := by
  induction l using List.reverseRecOn with
  | nil =>
      simp only [stAfter, List.foldl_nil, Bool.false_eq_true, false_iff]
      exact blinkPending_nil
  | append_singleton l e ih =>
      rw [stAfter_append_one, blinkPending_snoc, ← ih]
      cases hst : stAfter false l with
      | false =>
          unfold stepState
          by_cases hc : e < CLOSE
          · simp [hc]
          · simp [hc]
      | true =>
          unfold stepState
          by_cases ho : OPEN < e
          · simp only [Bool.true_eq_false, false_and, if_false, and_true, ho,
              true_and, if_true, not_true, or_false, Bool.false_eq_true, false_iff,
              not_false_iff, and_false]
            intro hc
            exact not_open_lt_of_lt_close hc ho
          · simp [ho]

theorem blinkRun_getElem (s : Bool) (frames : List (ℝ × Bool)) (i : ℕ) (e : ℝ) (v : Bool)
    (h : frames[i]? = some (e, v)) :
    (blinkRun s frames)[i]? =
      some ((blinkStep (stAfter s ((frames.map Prod.fst).take i)) v e).2) := by
  induction frames generalizing s i with
  | nil => simp at h
  | cons f rest ih =>
      obtain ⟨e0, v0⟩ := f
      cases i with
      | zero =>
          rw [List.getElem?_cons_zero] at h
          have hp := Option.some.inj h
          have h1 : e0 = e := congrArg Prod.fst hp
          have h2 : v0 = v := congrArg Prod.snd hp
          subst h1
          subst h2
          simp [blinkRun, stAfter]
      | succ i =>
          rw [List.getElem?_cons_succ] at h
          show ((blinkStep s v0 e0).2 :: blinkRun (blinkStep s v0 e0).1 rest)[i + 1]? = _
          rw [List.getElem?_cons_succ, ih _ _ h, blinkStep_fst]
          rw [List.map_cons, List.take_succ_cons, stAfter_cons]

/-- C7: `getEAR` computes `(dist(p1,p5) + dist(p2,p4)) / (2 * dist(p0,p3))`
with Euclidean distances; and, over any run of frames, the final capture is
triggered at a frame exactly when a blink is pending (the average EAR
dropped below 0.2 with no intervening rise above 0.27), the frame's average
EAR rises above 0.27, and liveness has been verified at that frame. -/
theorem C7_EAR_blink (frames : List (ℝ × Bool)) (i : ℕ) (e : ℝ) (v : Bool)
    (h : frames[i]? = some (e, v)) :
    (∀ pts : Fin 6 → ℝ × ℝ, getEAR pts =
      (euclDist (pts 1) (pts 5) + euclDist (pts 2) (pts 4)) /
        (2 * euclDist (pts 0) (pts 3))) ∧
    ((blinkRun false frames)[i]? = some true ↔
      BlinkPending ((frames.map Prod.fst).take i) ∧ OPEN < e ∧ v = true) := by
  refine ⟨fun pts => rfl, ?_⟩
  rw [blinkRun_getElem false frames i e v h, Option.some.injEq, blinkStep_snd,
    stAfter_false_iff]

theorem C7_EAR_blink_witness :
    (blinkRun false [((3 : ℝ)/10, true), (1/10, true), (3/10, true)])[2]? = some true := by
  have h := (C7_EAR_blink [((3 : ℝ)/10, true), (1/10, true), (3/10, true)] 2 (3/10) true rfl).2
  apply h.mpr
  refine ⟨⟨1, 1/10, rfl, ?_, ?_⟩, ?_, rfl⟩
  · unfold CLOSE
    norm_num
  · intro k e2 hk hke2
    have hlen : (([((3 : ℝ)/10, true), (1/10, true), (3/10, true)].map Prod.fst).take 2).length ≤ k := by
      simp
      omega
    rw [List.getElem?_eq_none hlen] at hke2
    exact absurd hke2 (by simp)
  · unfold OPEN
    norm_num
end MediaPipe

namespace AmplifyLiveness

/-- The state of the Amplify liveness component: the React state hooks and
mutable refs of the component, plus the set of in-flight
`/liveness/create` and `/liveness/result` requests (by request id), the
request owned by the single `abortControllerRef`, and a fresh-id counter.
`sessionIdRef`/`sessionData` carry an abstract session id. -/
structure LState where
  sessionCreated : Bool
  captureComplete : Bool
  handlingAnalysis : Bool
  isMounted : Bool
  isCaptured : Bool
  loading : Bool
  retryCount : ℕ
  sessionIdRef : Option ℕ
  sessionData : Option ℕ
  detectorKey : ℕ
  status : String
  inFlightCreate : List ℕ
  inFlightResult : List ℕ
  ctrl : Option ℕ
  nextReq : ℕ
deriving DecidableEq, Repr

/-- `abortControllerRef.current.abort()`: the request owned by the current
controller stops being in flight. -/
def abortCtrl (s : LState) : LState :=
  {s with inFlightCreate := s.inFlightCreate.filter (fun r => decide (some r ≠ s.ctrl)),
          inFlightResult := s.inFlightResult.filter (fun r => decide (some r ≠ s.ctrl))}

/-- The synchronous start of `fetchWithTimeout` for `/liveness/create`:
abort the previous controller's request, then issue a fresh request owned
by the new controller. -/
def startCreateFetch (s : LState) : LState :=
  {abortCtrl s with inFlightCreate := (abortCtrl s).inFlightCreate ++ [s.nextReq],
                    ctrl := some s.nextReq, nextReq := s.nextReq + 1}

/-- The synchronous start of `fetchWithTimeout` for `/liveness/result`. -/
def startResultFetch (s : LState) : LState :=
  {abortCtrl s with inFlightResult := (abortCtrl s).inFlightResult ++ [s.nextReq],
                    ctrl := some s.nextReq, nextReq := s.nextReq + 1}

/-- `hardReset`: a no-op once `captureCompleteRef` is set; otherwise clears
the session refs, bumps the detector key, clears `sessionData` and shows
the loader. -/
def hardReset (s : LState) : LState :=
  if s.captureComplete then s
  else {s with sessionCreated := false, sessionIdRef := none, handlingAnalysis := false,
               detectorKey := s.detectorKey + 1, sessionData := none, loading := true}

/-- The synchronous entry segment of `createSession`, up to (and
including) the issue of the `/liveness/create` fetch: the
`sessionCreatedRef`/`captureCompleteRef` guard, the `retryCount` cap, then
the ref updates — `sessionCreatedRef` is set *before* the first `await` —
and the request start. -/
def createSession (s : LState) : LState :=
  if s.sessionCreated || s.captureComplete then s
  else if 3 ≤ s.retryCount then
    {s with status := "Max retries exceeded. Please refresh and try again.", loading := false}
  else
    startCreateFetch
      {s with sessionCreated := true, sessionIdRef := none,
              detectorKey := s.detectorKey + 1, loading := true,
              status := "Creating liveness session..."}

/-- Contiguous-substring test on character lists. -/
def charsIncludes (pat : List Char) : List Char → Bool
  | [] => pat.isPrefixOf []
  | c :: rest => pat.isPrefixOf (c :: rest) || charsIncludes pat rest

/-- JS `String.prototype.includes`. -/
def strIncludes (s pat : String) : Bool := charsIncludes pat.data s.data

/-- The status string built by the `catch` of `createSession`. -/
def createFailStatus (retryCount : ℕ) (em : String) : String :=
  (if strIncludes em "timeout" then "Connection timeout. Retrying..."
   else if strIncludes em "404" then "Liveness service not available"
   else "Failed to create liveness session") ++
    ". Retry " ++ toString (retryCount + 1) ++ "/3"

/-- The continuation of `createSession` when the fetch resolved with a
valid session payload `sid`: dropped when unmounted or capture completed
(only the `finally` runs), otherwise publishes the session. -/
def createCompleteOk (s : LState) (i sid : ℕ) : LState :=
  if !s.isMounted || s.captureComplete then
    {s with inFlightCreate := s.inFlightCreate.erase i, loading := false}
  else
    {s with inFlightCreate := s.inFlightCreate.erase i,
            sessionData := some sid,
            status := "Session ready — follow the on-screen instructions",
            sessionIdRef := some sid, loading := false}

/-- The `catch` continuation of `createSession` (network error, abort, or
invalid payload, with error message `em`): sets the retry status, clears
`sessionData`, bumps `retryCount`, runs `hardReset`, schedules a retry and
runs the `finally`. -/
def createCompleteErr (s : LState) (i : ℕ) (em : String) : LState :=
  {hardReset
    {s with inFlightCreate := s.inFlightCreate.erase i,
            status := createFailStatus s.retryCount em,
            sessionData := none,
            retryCount := s.retryCount + 1} with loading := false}

/-- The synchronous entry segment of `handleAnalysisComplete`, up to the
issue of the `/liveness/result` fetch: the
`handlingAnalysisRef`/`captureCompleteRef` guard and the session-id
consistency check. -/
def handleAnalysisEntry (s : LState) : LState :=
  if s.handlingAnalysis || s.captureComplete then s
  else
    match s.sessionData with
    | none => s
    | some sid =>
        if s.sessionIdRef = some sid then
          startResultFetch
            {s with handlingAnalysis := true,
                    status := "Liveness analysis complete — fetching results...",
                    loading := true}
        else s

/-- The continuation of `handleAnalysisComplete` on a SUCCEEDED result
with sufficient confidence, an image payload, and a successful
`setLiveImage` callback: the capture is published and
`captureCompleteRef` stays set. -/
def resultCaptured (s : LState) (i : ℕ) : LState :=
  {s with inFlightResult := s.inFlightResult.erase i,
          captureComplete := true, isCaptured := true,
          status := "✓ Photo captured successfully!",
          sessionData := none, sessionCreated := false, sessionIdRef := none,
          loading := false, handlingAnalysis := false}

/-- The continuation where `setLiveImage` itself throws:
`captureCompleteRef` is set and then cleared again, and the component
resets. -/
def resultCaptureCallbackErr (s : LState) (i : ℕ) : LState :=
  {hardReset
    {s with inFlightResult := s.inFlightResult.erase i,
            status := "Error saving image. Please try again.",
            captureComplete := false,
            handlingAnalysis := false} with loading := false, handlingAnalysis := false}

/-- Every failing continuation of `handleAnalysisComplete` (fetch threw or
was aborted, missing `Status`, failed or low-confidence result, missing
image bytes, unusable image): status message `msg`, reset, retry
scheduled, `finally` runs. -/
def resultFail (s : LState) (i : ℕ) (msg : String) : LState :=
  {hardReset
    {s with inFlightResult := s.inFlightResult.erase i,
            status := msg,
            handlingAnalysis := false} with loading := false, handlingAnalysis := false}

/-- The synchronous part of `handleError`. -/
def handleError (s : LState) : LState :=
  if s.captureComplete then s
  else hardReset {s with status := "Liveness check error. Restarting..."}

/-- The synchronous part of `handleUserCancel`. -/
def handleUserCancel (s : LState) : LState :=
  if s.captureComplete then s
  else hardReset {s with status := "Liveness check cancelled. Restarting..."}

/-- The mount effect: records the mount and, unless capture completed,
hard-resets (the delayed `createSession` is a separate event). -/
def mountEffect (s : LState) : LState :=
  if s.captureComplete then {s with isMounted := true}
  else hardReset {s with isMounted := true}

/-- The unmount cleanup: abort the controller's request. -/
def unmountEffect (s : LState) : LState :=
  {abortCtrl s with isMounted := false, ctrl := none}

/-- The initial component state. -/
def init : LState :=
  ⟨false, false, false, false, false, true, 0, none, none, 0,
   "Preparing liveness...", [], [], none, 0⟩

/-- The event-interleaving semantics of the component: each event is one
synchronous JS segment.  Completions of a create fetch require the request
to have been issued (`i < s.nextReq`; an `ok` completion additionally
requires the request to still be in flight — an aborted fetch can only
reject).  Handler invocations can occur at any time, which over-approximates
the real schedules (timers, detector callbacks, effects). -/
inductive Step : LState → LState → Prop
  | create (s) : Step s (createSession s)
  | createOk (s i sid) (h : i ∈ s.inFlightCreate) : Step s (createCompleteOk s i sid)
  | createErr (s i em) (h : i < s.nextReq) : Step s (createCompleteErr s i em)
  | analysis (s) : Step s (handleAnalysisEntry s)
  | resCaptured (s i) (h : i ∈ s.inFlightResult) : Step s (resultCaptured s i)
  | resCbErr (s i) (h : i ∈ s.inFlightResult) : Step s (resultCaptureCallbackErr s i)
  | resFail (s i msg) (h : i < s.nextReq) : Step s (resultFail s i msg)
  | err (s) : Step s (handleError s)
  | cancel (s) : Step s (handleUserCancel s)
  | mount (s) : Step s (mountEffect s)
  | unmount (s) : Step s (unmountEffect s)

/-- States reachable from the initial state. -/
inductive Reachable : LState → Prop
  | init : Reachable init
  | step {s t : LState} : Reachable s → Step s t → Reachable t

/-- The inductive invariant: every in-flight request is the one owned by
the abort controller (so there is at most one of each kind), and once
capture completed no result fetch is pending. -/
def Inv (s : LState) : Prop :=
  (∀ r ∈ s.inFlightCreate, s.ctrl = some r) ∧
  (∀ r ∈ s.inFlightResult, s.ctrl = some r) ∧
  s.inFlightCreate.length ≤ 1 ∧
  s.inFlightResult.length ≤ 1 ∧
  (s.captureComplete = true → s.inFlightResult = [])

theorem hardReset_inFlightCreate (s : LState) :
    (hardReset s).inFlightCreate = s.inFlightCreate := by
  unfold hardReset
  split <;> rfl

theorem hardReset_inFlightResult (s : LState) :
    (hardReset s).inFlightResult = s.inFlightResult := by
  unfold hardReset
  split <;> rfl

theorem hardReset_ctrl (s : LState) : (hardReset s).ctrl = s.ctrl := by
  unfold hardReset
  split <;> rfl

theorem hardReset_captureComplete (s : LState) :
    (hardReset s).captureComplete = s.captureComplete := by
  unfold hardReset
  split <;> rfl

theorem abortCtrl_empty (s : LState)
    (h1 : ∀ r ∈ s.inFlightCreate, s.ctrl = some r)
    (h2 : ∀ r ∈ s.inFlightResult, s.ctrl = some r) :
    (abortCtrl s).inFlightCreate = [] ∧ (abortCtrl s).inFlightResult = [] := by
  constructor
  · refine List.filter_eq_nil_iff.mpr ?_
    intro r hr
    simp [h1 r hr]
  · refine List.filter_eq_nil_iff.mpr ?_
    intro r hr
    simp [h2 r hr]

theorem mem_len_one_eq {l : List ℕ} {i : ℕ} (hm : i ∈ l) (hl : l.length ≤ 1) :
    l = [i] := by
  cases l with
  | nil => cases hm
  | cons a t =>
      have ht : t = [] := by
        cases t with
        | nil => rfl
        | cons b u => simp at hl
      subst ht
      have hia : a = i := by
        have h2 : i = a := by simpa using hm
        exact h2.symm
      subst hia
      rfl

theorem inv_startCreateFetch (x : LState)
    (h1 : ∀ r ∈ x.inFlightCreate, x.ctrl = some r)
    (h2 : ∀ r ∈ x.inFlightResult, x.ctrl = some r) :
    Inv (startCreateFetch x) := by
  have habort := abortCtrl_empty x h1 h2
  unfold startCreateFetch
  refine ⟨?_, ?_, ?_, ?_, ?_⟩
  · intro r hr2
    simp only [habort.1, List.nil_append, List.mem_singleton] at hr2
    subst hr2
    rfl
  · intro r hr2
    simp only [habort.2] at hr2
    cases hr2
  · simp [habort.1]
  · simp [habort.2]
  · intro _
    simp [habort.2]

theorem inv_startResultFetch (x : LState)
    (h1 : ∀ r ∈ x.inFlightCreate, x.ctrl = some r)
    (h2 : ∀ r ∈ x.inFlightResult, x.ctrl = some r)
    (hcc : x.captureComplete = false) :
    Inv (startResultFetch x) := by
  have habort := abortCtrl_empty x h1 h2
  unfold startResultFetch
  refine ⟨?_, ?_, ?_, ?_, ?_⟩
  · intro r hr2
    simp only [habort.1] at hr2
    cases hr2
  · intro r hr2
    simp only [habort.2, List.nil_append, List.mem_singleton] at hr2
    subst hr2
    rfl
  · simp [habort.1]
  · simp [habort.2]
  · intro hc
    have hc2 : x.captureComplete = true := hc
    rw [hcc] at hc2
    cases hc2

theorem inv_init : Inv init := by
  refine ⟨?_, ?_, ?_, ?_, ?_⟩ <;> simp [init, Inv]

theorem inv_step {s t : LState} (hinv : Inv s) (hst : Step s t) : Inv t := by
  obtain ⟨h1, h2, h3, h4, h5⟩ := hinv
  have herase_create : ∀ i : ℕ,
      (∀ r ∈ s.inFlightCreate.erase i, s.ctrl = some r) ∧
      (s.inFlightCreate.erase i).length ≤ 1 := by
    intro i
    exact ⟨fun r hr => h1 r (List.mem_of_mem_erase hr),
      le_trans (List.erase_sublist i s.inFlightCreate).length_le h3⟩
  have herase_result : ∀ i : ℕ,
      (∀ r ∈ s.inFlightResult.erase i, s.ctrl = some r) ∧
      (s.inFlightResult.erase i).length ≤ 1 := by
    intro i
    exact ⟨fun r hr => h2 r (List.mem_of_mem_erase hr),
      le_trans (List.erase_sublist i s.inFlightResult).length_le h4⟩
  cases hst with
  | create =>
      unfold createSession
      by_cases hg : (s.sessionCreated || s.captureComplete) = true
      · simp only [hg, if_true]
        exact ⟨h1, h2, h3, h4, h5⟩
      · simp only [Bool.not_eq_true] at hg
        simp only [hg, Bool.false_eq_true, if_false]
        by_cases hr : 3 ≤ s.retryCount
        · simp only [hr, if_true]
          exact ⟨h1, h2, h3, h4, fun hc => h5 hc⟩
        · simp only [hr, if_false]
          exact inv_startCreateFetch _ h1 h2
  | createOk i sid h =>
      unfold createCompleteOk
      split
      · exact ⟨(herase_create i).1, h2, (herase_create i).2, h4, fun hc => h5 hc⟩
      · exact ⟨(herase_create i).1, h2, (herase_create i).2, h4, fun hc => h5 hc⟩
  | createErr i em h =>
      unfold createCompleteErr
      refine ⟨?_, ?_, ?_, ?_, ?_⟩ <;>
        simp only [hardReset_inFlightCreate, hardReset_inFlightResult, hardReset_ctrl,
          hardReset_captureComplete]
      · exact (herase_create i).1
      · exact h2
      · exact (herase_create i).2
      · exact h4
      · exact h5
  | analysis =>
      unfold handleAnalysisEntry
      by_cases hg : (s.handlingAnalysis || s.captureComplete) = true
      · simp only [hg, if_true]
        exact ⟨h1, h2, h3, h4, h5⟩
      · simp only [Bool.not_eq_true] at hg
        simp only [hg, Bool.false_eq_true, if_false]
        have hcc : s.captureComplete = false := (Bool.or_eq_false_iff.mp hg).2
        cases hsd : s.sessionData with
        | none => exact ⟨h1, h2, h3, h4, h5⟩
        | some sid =>
            by_cases hid : s.sessionIdRef = some sid
            · simp only [hid, if_true]
              exact inv_startResultFetch _ h1 h2 hcc
            · simp only [hid, if_false]
              exact ⟨h1, h2, h3, h4, h5⟩
  | resCaptured i h =>
      unfold resultCaptured
      have hsing := mem_len_one_eq h h4
      refine ⟨h1, (herase_result i).1, h3, (herase_result i).2, ?_⟩
      intro _
      rw [show s.inFlightResult = [i] from hsing]
      simp
  | resCbErr i h =>
      unfold resultCaptureCallbackErr
      refine ⟨?_, ?_, ?_, ?_, ?_⟩ <;>
        simp only [hardReset_inFlightCreate, hardReset_inFlightResult, hardReset_ctrl,
          hardReset_captureComplete]
      · exact h1
      · exact (herase_result i).1
      · exact h3
      · exact (herase_result i).2
      · intro hc
        cases hc
  | resFail i msg h =>
      unfold resultFail
      refine ⟨?_, ?_, ?_, ?_, ?_⟩ <;>
        simp only [hardReset_inFlightCreate, hardReset_inFlightResult, hardReset_ctrl,
          hardReset_captureComplete]
      · exact h1
      · exact (herase_result i).1
      · exact h3
      · exact (herase_result i).2
      · intro hc
        rw [h5 hc]
        rfl
  | err =>
      unfold handleError
      split
      · exact ⟨h1, h2, h3, h4, h5⟩
      · refine ⟨?_, ?_, ?_, ?_, ?_⟩ <;>
          simp only [hardReset_inFlightCreate, hardReset_inFlightResult, hardReset_ctrl,
            hardReset_captureComplete]
        · exact h1
        · exact h2
        · exact h3
        · exact h4
        · exact h5
  | cancel =>
      unfold handleUserCancel
      split
      · exact ⟨h1, h2, h3, h4, h5⟩
      · refine ⟨?_, ?_, ?_, ?_, ?_⟩ <;>
          simp only [hardReset_inFlightCreate, hardReset_inFlightResult, hardReset_ctrl,
            hardReset_captureComplete]
        · exact h1
        · exact h2
        · exact h3
        · exact h4
        · exact h5
  | mount =>
      unfold mountEffect
      split
      · exact ⟨h1, h2, h3, h4, h5⟩
      · refine ⟨?_, ?_, ?_, ?_, ?_⟩ <;>
          simp only [hardReset_inFlightCreate, hardReset_inFlightResult, hardReset_ctrl,
            hardReset_captureComplete]
        · exact h1
        · exact h2
        · exact h3
        · exact h4
        · exact h5
  | unmount =>
      unfold unmountEffect
      have habort := abortCtrl_empty s h1 h2
      refine ⟨?_, ?_, ?_, ?_, ?_⟩
      · intro r hr2
        simp only [habort.1] at hr2
        cases hr2
      · intro r hr2
        simp only [habort.2] at hr2
        cases hr2
      · simp [habort.1]
      · simp [habort.2]
      · intro _
        simp [habort.2]

theorem inv_reachable {s : LState} (h : Reachable s) : Inv s := by
  induction h with
  | init => exact inv_init
  | step _ hst ih => exact inv_step ih hst

/-- C4: in the Amplify liveness component, `createSession` returns with no
state change and no request whenever `sessionCreatedRef` or
`captureCompleteRef` is set; when it does proceed it sets
`sessionCreatedRef` in the same synchronous segment that issues the
`/liveness/create` fetch (before its first `await`); in every reachable
state at most one `/liveness/create` request is in flight (each
`fetchWithTimeout` aborts the previous controller's request); and once
`captureCompleteRef` is set, `createSession`, `hardReset`, `handleError`
and `handleUserCancel` are all no-ops, every step preserves the flag, and
no step starts a new create request — no session is created after a
successful capture. -/
theorem C4_create_session_single_flight :
    (∀ s : LState, (s.sessionCreated = true ∨ s.captureComplete = true) →
      createSession s = s) ∧
    (∀ s : LState, s.sessionCreated = false → s.captureComplete = false →
      s.retryCount < 3 →
      (createSession s).sessionCreated = true ∧
      s.nextReq ∈ (createSession s).inFlightCreate ∧
      (createSession s).nextReq = s.nextReq + 1) ∧
    (∀ s : LState, Reachable s → s.inFlightCreate.length ≤ 1) ∧
    (∀ s : LState, s.captureComplete = true →
      createSession s = s ∧ hardReset s = s ∧ handleError s = s ∧ handleUserCancel s = s) ∧
    (∀ s t : LState, Reachable s → Step s t → s.captureComplete = true →
      t.captureComplete = true ∧ ∀ r ∈ t.inFlightCreate, r ∈ s.inFlightCreate) := by
  refine ⟨?_, ?_, ?_, ?_, ?_⟩
  · intro s h
    unfold createSession
    rcases h with h | h <;> simp [h]
  · intro s hs hc hr
    have hr2 : ¬ 3 ≤ s.retryCount := by omega
    unfold createSession
    simp only [hs, hc, Bool.or_self, Bool.false_eq_true, if_false, hr2]
    refine ⟨rfl, ?_, rfl⟩
    unfold startCreateFetch
    simp
  · intro s h
    exact (inv_reachable h).2.2.1
  · intro s h
    refine ⟨?_, ?_, ?_, ?_⟩
    · unfold createSession
      simp [h]
    · unfold hardReset
      simp [h]
    · unfold handleError
      simp [h]
    · unfold handleUserCancel
      simp [h]
  · intro s t hreach hstep hcc
    obtain ⟨h1, h2, h3, h4, h5⟩ := inv_reachable hreach
    cases hstep with
    | create =>
        have hid2 : createSession s = s := by
          unfold createSession
          simp [hcc]
        rw [hid2]
        exact ⟨hcc, fun r hr => hr⟩
    | createOk i sid h =>
        unfold createCompleteOk
        split <;> exact ⟨hcc, fun r hr => List.mem_of_mem_erase hr⟩
    | createErr i em h =>
        refine ⟨?_, ?_⟩
        · unfold createCompleteErr
          simp only [hardReset_captureComplete]
          exact hcc
        · unfold createCompleteErr
          simp only [hardReset_inFlightCreate]
          exact fun r hr => List.mem_of_mem_erase hr
    | analysis =>
        have hid2 : handleAnalysisEntry s = s := by
          unfold handleAnalysisEntry
          simp [hcc]
        rw [hid2]
        exact ⟨hcc, fun r hr => hr⟩
    | resCaptured i h =>
        rw [h5 hcc] at h
        cases h
    | resCbErr i h =>
        rw [h5 hcc] at h
        cases h
    | resFail i msg h =>
        refine ⟨?_, ?_⟩
        · unfold resultFail
          simp only [hardReset_captureComplete]
          exact hcc
        · unfold resultFail
          simp only [hardReset_inFlightCreate]
          exact fun r hr => hr
    | err =>
        have hid2 : handleError s = s := by
          unfold handleError
          simp [hcc]
        rw [hid2]
        exact ⟨hcc, fun r hr => hr⟩
    | cancel =>
        have hid2 : handleUserCancel s = s := by
          unfold handleUserCancel
          simp [hcc]
        rw [hid2]
        exact ⟨hcc, fun r hr => hr⟩
    | mount =>
        have hid2 : mountEffect s = {s with isMounted := true} := by
          unfold mountEffect
          simp [hcc]
        rw [hid2]
        exact ⟨hcc, fun r hr => hr⟩
    | unmount =>
        unfold unmountEffect abortCtrl
        exact ⟨hcc, fun r hr => (List.mem_filter.mp hr).1⟩

theorem C4_create_session_single_flight_witness :
    createSession {init with captureComplete := true} = {init with captureComplete := true} ∧
    init.inFlightCreate.length ≤ 1 := by
  have h := C4_create_session_single_flight
  exact ⟨(h.2.2.2.1 {init with captureComplete := true} rfl).1,
    h.2.2.1 init Reachable.init⟩

end AmplifyLiveness

namespace ComparePage

/-- The dynamic type of the `liveImage` value as `handleCompare` sees it:
a `File`, a `Blob`, or anything else. -/
inductive JsImage
  | file
  | blob
  | other
deriving DecidableEq, Repr

/-- The state of `FaceMatcherPage`: React state hooks, the
`compareInProgressRef` flag, the in-flight and aborted-but-unsettled
compare requests (by id), the request owned by `abortControllerRef`, a
fresh-id counter, and a history counter of compare responses stored into
`matchResult`. -/
structure PState where
  flag : Bool
  aadhaarImage : Option String
  liveImage : Option JsImage
  matchResult : Option ℕ
  loading : Bool
  error : String
  inFlightCompare : List ℕ
  abortedCompare : List ℕ
  ctrl : Option ℕ
  nextReq : ℕ
  completed : ℕ
deriving DecidableEq, Repr

/-- How one invocation of `handleCompare` ended its synchronous part. -/
inductive CmpOutcome
  | blocked
  | noImages
  | badType
  | started
deriving DecidableEq, Repr

/-- `abortControllerRef.current.abort()` inside `fetchWithTimeout`: the
controller's request stops being in flight but its rejection is still
pending. -/
def abortCompare (s : PState) : PState :=
  {s with inFlightCompare := s.inFlightCompare.filter (fun r => decide (some r ≠ s.ctrl)),
          abortedCompare :=
            s.abortedCompare ++
              s.inFlightCompare.filter (fun r => !(decide (some r ≠ s.ctrl)))}

/-- The synchronous start of the compare `fetchWithTimeout`. -/
def startCompareFetch (s : PState) : PState :=
  {abortCompare s with
    inFlightCompare := (abortCompare s).inFlightCompare ++ [s.nextReq],
    ctrl := some s.nextReq, nextReq := s.nextReq + 1}

/-- The synchronous entry of `handleCompare`, up to the issue of the
compare fetch: the `compareInProgressRef` guard; the flag is set, then
cleared again and the call abandoned when an image is missing, or — after
`setLoading(true)`/`setError('')` — when the live image is neither a
`File` nor a `Blob` (`Invalid image format`); otherwise the fetch starts
with the flag still set. -/
def handleCompareEntry (s : PState) : PState × CmpOutcome :=
  if s.flag then (s, .blocked)
  else
    match s.aadhaarImage, s.liveImage with
    | none, _ => (s, .noImages)
    | some _, none => (s, .noImages)
    | some _, some img =>
        match img with
        | .other => ({s with error := "Invalid image format", loading := false}, .badType)
        | _ => (startCompareFetch {s with flag := true, loading := true, error := ""}, .started)

/-- The error message built by the `catch` of `handleCompare`. -/
def mkCompareError (em : String) : String :=
  "Comparison failed. " ++
    (if AmplifyLiveness.strIncludes em "timeout" then
      "The comparison took too long. Please try again."
     else if AmplifyLiveness.strIncludes em "Network error" then
      "Network connection issue. Please check your internet."
     else if AadhaarProxy.jsTruthyStr em then em
     else "Please try again.")

/-- The continuation of `handleCompare` when the compare response arrived
and parsed: the result is stored and the flag is set — permanently. -/
def completeOk (s : PState) (i d : ℕ) : PState :=
  {s with inFlightCompare := s.inFlightCompare.erase i,
          matchResult := some d, flag := true, loading := false,
          completed := s.completed + 1}

/-- The `catch` continuation of `handleCompare` (the fetch threw or was
aborted, or the response failed to parse): the flag is cleared, allowing a
retry. -/
def completeErr (s : PState) (i : ℕ) (em : String) : PState :=
  {s with inFlightCompare := s.inFlightCompare.erase i,
          abortedCompare := s.abortedCompare.erase i,
          error := mkCompareError em, flag := false, loading := false}

/-- The synchronous start of an Aadhaar lookup in `handleFetch` (it shares
`abortControllerRef`, so it aborts an in-flight compare). -/
def aadhaarFetchStart (s : PState) : PState :=
  {abortCompare s with loading := true, error := "",
                       ctrl := some s.nextReq, nextReq := s.nextReq + 1}

/-- A successful Aadhaar lookup: stores the photo URL and resets
`liveImage` and `matchResult`. -/
def aadhaarFetchOk (s : PState) (url : String) : PState :=
  {s with aadhaarImage := some url, liveImage := none, matchResult := none,
          loading := false}

/-- A failed Aadhaar lookup after its retries. -/
def aadhaarFetchErr (s : PState) (msg : String) : PState :=
  {s with error := msg, loading := false}

/-- The `setLiveImage` callback from the liveness camera. -/
def setLiveImageEvent (s : PState) (img : JsImage) : PState :=
  {s with liveImage := some img}

/-- The initial page state. -/
def initP : PState := ⟨false, none, none, none, false, "", [], [], none, 0, 0⟩

/-- Event-interleaving semantics of the page: one event per synchronous JS
segment.  An `ok` completion requires the request to still be in flight
(an aborted fetch can only reject); an error completion settles an
in-flight or aborted request. -/
inductive StepP : PState → PState → Prop
  | invoke (s) : StepP s (handleCompareEntry s).1
  | completeOk (s i d) (h : i ∈ s.inFlightCompare) : StepP s (completeOk s i d)
  | completeErr (s i em) (h : i ∈ s.inFlightCompare ∨ i ∈ s.abortedCompare) :
      StepP s (completeErr s i em)
  | aadhaarStart (s) : StepP s (aadhaarFetchStart s)
  | aadhaarOk (s url) : StepP s (aadhaarFetchOk s url)
  | aadhaarErr (s msg) : StepP s (aadhaarFetchErr s msg)
  | setLive (s img) : StepP s (setLiveImageEvent s img)

/-- Page states reachable from the initial state. -/
inductive ReachableP : PState → Prop
  | init : ReachableP initP
  | step {s t : PState} : ReachableP s → StepP s t → ReachableP t

/-- The compare requests not yet settled: in flight or aborted. -/
def pendingOf (s : PState) : List ℕ := s.inFlightCompare ++ s.abortedCompare

/-- The inductive invariant: at most one unsettled compare request; an
unsettled request implies the flag is set; once a compare completed the
flag is set and nothing is unsettled; at most one completion ever. -/
def InvP (s : PState) : Prop :=
  (pendingOf s).length ≤ 1 ∧
  (pendingOf s ≠ [] → s.flag = true) ∧
  (1 ≤ s.completed → s.flag = true ∧ pendingOf s = []) ∧
  s.completed ≤ 1

theorem pending_single {s : PState} (hlen : (pendingOf s).length ≤ 1) {i : ℕ}
    (h : i ∈ pendingOf s) :
    (s.inFlightCompare = [i] ∧ s.abortedCompare = []) ∨
    (s.inFlightCompare = [] ∧ s.abortedCompare = [i]) := by
  have hsing := AmplifyLiveness.mem_len_one_eq h hlen
  unfold pendingOf at hsing
  cases hin : s.inFlightCompare with
  | nil =>
      right
      rw [hin] at hsing
      simp only [List.nil_append] at hsing
      exact ⟨rfl, hsing⟩
  | cons a t2 =>
      left
      rw [hin] at hsing
      simp only [List.cons_append, List.cons.injEq] at hsing
      obtain ⟨ha, h2⟩ := hsing
      obtain ⟨ht2, hab⟩ := List.append_eq_nil.mp h2
      subst ha
      rw [ht2]
      exact ⟨rfl, hab⟩

theorem abortCompare_pending_length (s : PState) :
    (pendingOf (abortCompare s)).length = (pendingOf s).length := by
  unfold pendingOf abortCompare
  have hperm := (List.filter_append_perm
    (fun r => decide (some r ≠ s.ctrl)) s.inFlightCompare).length_eq
  simp only [List.length_append] at hperm ⊢
  omega

theorem invP_startCompareFetch (x : PState)
    (hin : x.inFlightCompare = []) (hab : x.abortedCompare = [])
    (hflag : x.flag = true) (hcomp : x.completed = 0) :
    InvP (startCompareFetch x) := by
  have hpend : pendingOf (startCompareFetch x) = [x.nextReq] := by
    unfold pendingOf startCompareFetch abortCompare
    simp [hin, hab]
  refine ⟨?_, ?_, ?_, ?_⟩
  · rw [hpend]
    simp
  · intro _
    exact hflag
  · intro hc
    have hc2 : x.completed = (startCompareFetch x).completed := rfl
    rw [← hc2, hcomp] at hc
    omega
  · have hc2 : (startCompareFetch x).completed = x.completed := rfl
    rw [hc2, hcomp]
    omega

theorem invP_init : InvP initP := by
  refine ⟨?_, ?_, ?_, ?_⟩ <;> simp [initP, InvP, pendingOf]

theorem invP_step {s t : PState} (hinv : InvP s) (hst : StepP s t) : InvP t := by
  obtain ⟨h1, h2, h3, h4⟩ := hinv
  cases hst with
  | invoke =>
      unfold handleCompareEntry
      by_cases hf : s.flag = true
      · simp only [hf, if_true]
        exact ⟨h1, h2, h3, h4⟩
      · simp only [Bool.not_eq_true] at hf
        simp only [hf, Bool.false_eq_true, if_false]
        have hpend : pendingOf s = [] := by
          by_contra hne
          rw [h2 hne] at hf
          cases hf
        have hcomp : s.completed = 0 := by
          by_contra hc
          have := (h3 (by omega)).1
          rw [this] at hf
          cases hf
        obtain ⟨hin, hab⟩ := List.append_eq_nil.mp hpend
        cases haa : s.aadhaarImage with
        | none => exact ⟨h1, h2, h3, h4⟩
        | some u =>
            cases hli : s.liveImage with
            | none => exact ⟨h1, h2, h3, h4⟩
            | some img =>
                cases img with
                | other =>
                    refine ⟨h1, ?_, ?_, h4⟩
                    · intro hne
                      exact (hne hpend).elim
                    · intro hc
                      have hc2 : (1 : ℕ) ≤ s.completed := hc
                      rw [hcomp] at hc2
                      exact absurd hc2 (by omega)
                | file => exact invP_startCompareFetch _ hin hab rfl hcomp
                | blob => exact invP_startCompareFetch _ hin hab rfl hcomp
  | completeOk i d h =>
      have hi : i ∈ pendingOf s := List.mem_append_left _ h
      rcases pending_single h1 hi with ⟨hin, hab⟩ | ⟨hin, hab⟩
      · have hcomp : s.completed = 0 := by
          by_contra hc
          have hp := (h3 (by omega)).2
          rw [hp] at hi
          cases hi
        have hpend : pendingOf (completeOk s i d) = [] := by
          unfold pendingOf completeOk
          simp [hin, hab]
        refine ⟨?_, ?_, ?_, ?_⟩
        · rw [hpend]
          simp
        · intro _
          rfl
        · intro _
          exact ⟨rfl, hpend⟩
        · have : (completeOk s i d).completed = s.completed + 1 := rfl
          rw [this, hcomp]
      · rw [hin] at h
        cases h
  | completeErr i em h =>
      have hi : i ∈ pendingOf s := by
        rcases h with h | h
        · exact List.mem_append_left _ h
        · exact List.mem_append_right _ h
      have hcomp : s.completed = 0 := by
        by_contra hc
        have hp := (h3 (by omega)).2
        rw [hp] at hi
        cases hi
      have hpend : pendingOf (completeErr s i em) = [] := by
        rcases pending_single h1 hi with ⟨hin, hab⟩ | ⟨hin, hab⟩ <;>
          · unfold pendingOf completeErr
            simp [hin, hab]
      refine ⟨?_, ?_, ?_, ?_⟩
      · rw [hpend]
        simp
      · intro hne
        rw [hpend] at hne
        exact absurd rfl hne
      · intro hc
        have : (completeErr s i em).completed = s.completed := rfl
        rw [this, hcomp] at hc
        omega
      · have : (completeErr s i em).completed = s.completed := rfl
        rw [this, hcomp]
        omega
  | aadhaarStart =>
      have hlen : (pendingOf (aadhaarFetchStart s)).length = (pendingOf s).length := by
        have := abortCompare_pending_length s
        unfold pendingOf aadhaarFetchStart at *
        simpa using this
      refine ⟨?_, ?_, ?_, ?_⟩
      · rw [hlen]
        exact h1
      · intro hne
        have hne2 : pendingOf s ≠ [] := by
          intro hnil
          have : (pendingOf (aadhaarFetchStart s)).length = 0 := by
            rw [hlen, hnil]
            rfl
          exact hne (List.length_eq_zero.mp this)
        exact h2 hne2
      · intro hc
        have h3s := h3 hc
        refine ⟨h3s.1, ?_⟩
        apply List.length_eq_zero.mp
        rw [hlen, h3s.2]
        rfl
      · exact h4
  | aadhaarOk url => exact ⟨h1, h2, h3, h4⟩
  | aadhaarErr msg => exact ⟨h1, h2, h3, h4⟩
  | setLive img => exact ⟨h1, h2, h3, h4⟩

theorem invP_reachable {s : PState} (h : ReachableP s) : InvP s := by
  induction h with
  | init => exact invP_init
  | step _ hst ih => exact invP_step ih hst

/-- A concrete page state with both images present but a live image that
is neither a `File` nor a `Blob`. -/
def sBad : PState :=
  ⟨false, some "http://x/img.jpg", some .other, none, false, "", [], [], none, 0, 0⟩

/-- C5 (counterexample): the claim that the compare flag is reset
(allowing a retry) only when the compare request throws or a required
image is missing is false: invoking `handleCompare` with both images
present but an invalid-typed live image takes the `Invalid image format`
branch, which leaves the flag cleared without any request or throw. -/
theorem C5_counterexample :
    ¬ (∀ s : PState, s.flag = false → (handleCompareEntry s).2 ≠ CmpOutcome.started →
        (handleCompareEntry s).1.flag = false →
        (s.aadhaarImage = none ∨ s.liveImage = none)) := by
  intro hclaim
  have h := hclaim sBad rfl (by decide) rfl
  rcases h with h | h <;> simp [sBad] at h

/-- C5 (amended): `handleCompare` returns immediately, unchanged, when
`compareInProgressRef` is set; storing a compare response sets the flag
and it is never cleared afterwards, so at most one compare request ever
completes per page load; and the flag ends up cleared (allowing a retry)
only when the compare request throws, when a required image is missing,
or when the live image is present but not a `File`/`Blob`. -/
theorem C5_compare_flag_amended :
    (∀ s : PState, s.flag = true → handleCompareEntry s = (s, CmpOutcome.blocked)) ∧
    (∀ s : PState, ReachableP s → s.completed ≤ 1) ∧
    (∀ s t : PState, ReachableP s → StepP s t → 1 ≤ s.completed →
      t.flag = true ∧ t.completed = s.completed) ∧
    (∀ (s : PState) (i d : ℕ),
      (completeOk s i d).flag = true ∧ (completeOk s i d).matchResult = some d) ∧
    (∀ s : PState, s.flag = false → (handleCompareEntry s).1.flag = false →
      (handleCompareEntry s).2 = CmpOutcome.noImages ∨
        (handleCompareEntry s).2 = CmpOutcome.badType) ∧
    (∀ s t : PState, StepP s t → s.flag = true → t.flag = false →
      ∃ i em, t = completeErr s i em) := by
  refine ⟨?_, ?_, ?_, ?_, ?_, ?_⟩
  · intro s h
    unfold handleCompareEntry
    simp [h]
  · intro s h
    exact (invP_reachable h).2.2.2
  · intro s t hreach hst hcomp
    obtain ⟨h1, h2, h3, h4⟩ := invP_reachable hreach
    have h3c := h3 hcomp
    cases hst with
    | invoke =>
        have hblocked : handleCompareEntry s = (s, CmpOutcome.blocked) := by
          unfold handleCompareEntry
          simp [h3c.1]
        rw [hblocked]
        exact ⟨h3c.1, rfl⟩
    | completeOk i d h =>
        have : i ∈ pendingOf s := List.mem_append_left _ h
        rw [h3c.2] at this
        cases this
    | completeErr i em h =>
        have hi : i ∈ pendingOf s := by
          rcases h with h | h
          · exact List.mem_append_left _ h
          · exact List.mem_append_right _ h
        rw [h3c.2] at hi
        cases hi
    | aadhaarStart => exact ⟨h3c.1, rfl⟩
    | aadhaarOk url => exact ⟨h3c.1, rfl⟩
    | aadhaarErr msg => exact ⟨h3c.1, rfl⟩
    | setLive img => exact ⟨h3c.1, rfl⟩
  · intro s i d
    exact ⟨rfl, rfl⟩
  · intro s hf hflag
    unfold handleCompareEntry at hflag ⊢
    simp only [hf, Bool.false_eq_true, if_false] at hflag ⊢
    cases haa : s.aadhaarImage with
    | none =>
        simp only [haa]
        left
        trivial
    | some u =>
        cases hli : s.liveImage with
        | none =>
            simp only [haa, hli]
            left
            trivial
        | some img =>
            cases img with
            | other =>
                simp only [haa, hli]
                right
                trivial
            | file =>
                rw [haa, hli] at hflag
                cases hflag
            | blob =>
                rw [haa, hli] at hflag
                cases hflag
  · intro s t hst hf hclear
    cases hst with
    | invoke =>
        have hblocked : handleCompareEntry s = (s, CmpOutcome.blocked) := by
          unfold handleCompareEntry
          simp [hf]
        rw [hblocked] at hclear
        have : s.flag = false := hclear
        rw [hf] at this
        cases this
    | completeOk i d h =>
        have : (true : Bool) = false := hclear
        cases this
    | completeErr i em h => exact ⟨i, em, rfl⟩
    | aadhaarStart =>
        have : s.flag = false := hclear
        rw [hf] at this
        cases this
    | aadhaarOk url =>
        have : s.flag = false := hclear
        rw [hf] at this
        cases this
    | aadhaarErr msg =>
        have : s.flag = false := hclear
        rw [hf] at this
        cases this
    | setLive img =>
        have : s.flag = false := hclear
        rw [hf] at this
        cases this

theorem C5_compare_flag_amended_witness :
    handleCompareEntry {initP with flag := true} =
      ({initP with flag := true}, CmpOutcome.blocked) ∧
    initP.completed ≤ 1 := by
  have h := C5_compare_flag_amended
  exact ⟨h.1 _ rfl, h.2.1 initP ReachableP.init⟩

end ComparePage
